import Mathlib

/-!
Shallow embedding of the BatteryCore Pro dashboard (src/App.tsx,
src/unnamed/part_000 = types.ts, src/unnamed/part_001 = geminiService.ts).

State lives in React hooks; we embed it as an explicit `AppState` record and
each handler / effect as a pure state transformer.  The asynchronous
`fetchInsights` callback is split into its synchronous prefix
(`fetchInsightsStart`: the online check and the `setLoadingInsight(true)`
before the `await`) and its continuation (`fetchInsightsFinish`: applying the
resolved data and clearing the loading flag), which is faithful to the
single-threaded event-loop execution of the source.  JavaScript numbers are
embedded as `ℚ` (with `Math.round` as Mathlib's `round`, which is
`⌊x + 1/2⌋`, the same function) and integer percentages as `ℤ`.
-/

namespace BatteryCore

/-- Battery health enumeration from types.ts (`'Good' | 'Fair' | 'Poor'`). -/
inductive Health where
  | Good
  | Fair
  | Poor
deriving DecidableEq

/-- `BatteryStats` record from types.ts.  `level` is an integer percent
(`Math.round(battery.level * 100)`), the remaining numeric fields are plain
JS numbers, embedded as `ℚ`. -/
structure BatteryStats where
  level : ℤ
  charging : Bool
  chargingTime : ℚ
  dischargingTime : ℚ
  temperature : ℚ
  voltage : ℚ
  health : Health
deriving DecidableEq

/-- `UsageData` record from types.ts: one chart sample. -/
structure UsageData where
  time : String
  level : ℤ
deriving DecidableEq

/-- JSON values, used to embed the result of `JSON.parse` in
geminiService.ts. -/
inductive Json where
  | null
  | bool (b : Bool)
  | num (q : ℚ)
  | str (s : String)
  | arr (items : List Json)
  | obj (fields : List (String × Json))

/-- JavaScript truthiness of a JSON value (`NaN` is not representable in the
`ℚ` embedding; every other JS falsy case is covered). -/
def Json.truthy : Json → Bool
  | Json.null => false
  | Json.bool b => b
  | Json.num q => decide (q ≠ 0)
  | Json.str s => decide (s ≠ "")
  | Json.arr _ => true
  | Json.obj _ => true

/-- Whether a JSON value is the JSON `null` literal. -/
def Json.isNull : Json → Bool
  | Json.null => true
  | _ => false

/-- Initial `useState` value of `stats` (App.tsx lines 10-18). -/
def initialStats : BatteryStats :=
  { level := 100
    charging := false
    chargingTime := 0
    dischargingTime := 0
    temperature := 32.4
    voltage := 3.8
    health := Health.Good }

/-- JS `parseFloat(x.toFixed(1))`: round to one decimal digit (both `toFixed`
and `Math.round` round halves up for the positive values that occur here). -/
def toFixed1 (q : ℚ) : ℚ := (round (q * 10) : ℤ) / 10

/-- JS `parseFloat(x.toFixed(2))`: round to two decimal digits. -/
def toFixed2 (q : ℚ) : ℚ := (round (q * 100) : ℤ) / 100

/-- `parseFloat((30 + Math.random() * 8).toFixed(1))` from App.tsx line 85,
with the `Math.random()` draw passed in explicitly. -/
def tempSample (rand : ℚ) : ℚ := toFixed1 (30 + rand * 8)

/-- `parseFloat((3.6 + Math.random() * 0.6).toFixed(2))` from App.tsx line 86,
with the `Math.random()` draw passed in explicitly. -/
def voltSample (rand : ℚ) : ℚ := toFixed2 (3.6 + rand * 0.6)

/-- One telemetry event from the browser battery capability, together with the
two `Math.random()` draws consumed by `updateBatteryInfo`.  The capability's
`level` is a fraction in [0.0, 1.0]; `rand1`/`rand2` are draws in [0, 1). -/
structure BatteryRaw where
  level : ℚ
  charging : Bool
  chargingTime : ℚ
  dischargingTime : ℚ
  rand1 : ℚ
  rand2 : ℚ

/-- `updateBatteryInfo` (App.tsx lines 77-88): merge the real battery fields
into the previous snapshot and resample temperature and voltage. -/
def updateBatteryInfo (battery : BatteryRaw) (prev : BatteryStats) : BatteryStats :=
  { prev with
    level := round (battery.level * 100)
    charging := battery.charging
    chargingTime := battery.chargingTime
    dischargingTime := battery.dischargingTime
    temperature := tempSample battery.rand1
    voltage := voltSample battery.rand2 }

/-- The `setUsageHistory` updater inside `historyInterval` (App.tsx lines
105-109): append the new sample, and if the result exceeds 20 entries drop
exactly the first (oldest) one via `slice(1)`. -/
def appendHistory (prev : List UsageData) (sample : UsageData) : List UsageData :=
  let newData := prev ++ [sample]
  if 20 < newData.length then newData.drop 1 else newData

/-- The history buffer obtained by running every tick of a session in order,
starting from the initial empty `useState` value. -/
def historyRun (samples : List UsageData) : List UsageData :=
  samples.foldl appendHistory []

/-- Outcome of the external `ai.models.generateContent` call in
geminiService.ts: either the promise rejects (network/service error), or it
resolves with `response.text` (which may be absent). -/
inductive GenOutcome where
  | throws
  | returns (text : Option String)

/-- `getBatteryInsights` (geminiService.ts): the `try` block awaits the
external call; `if (!text) return null` rejects an absent or empty text;
`JSON.parse(text)` either throws (modelled by `parseJson text = none`, caught
by the `catch` which returns null) or yields a JS value which is returned
as-is — a parsed JSON `null` therefore is the function's null return.  No
field of the parsed value is inspected. -/
def getBatteryInsights (parseJson : String → Option Json) (outcome : GenOutcome) :
    Option Json :=
  match outcome with
  | GenOutcome.throws => none
  | GenOutcome.returns none => none
  | GenOutcome.returns (some text) =>
    if text = "" then none
    else
      match parseJson text with
      | none => none
      | some j => if j.isNull then none else some j

/-- The hook state of the `App` component (App.tsx lines 10-25).  The
install-prompt and wake-lock state do not interact with the claims and are
omitted. -/
structure AppState where
  stats : BatteryStats
  insight : Option Json
  loadingInsight : Bool
  usageHistory : List UsageData
  lastFetchedLevel : Option ℤ
  isOnline : Bool

/-- Synchronous prefix of `fetchInsights` (App.tsx lines 130-132): return
early when offline, otherwise set the loading flag and issue the request.
The boolean reports whether a request was issued. -/
def fetchInsightsStart (s : AppState) : AppState × Bool :=
  if s.isOnline then ({ s with loadingInsight := true }, true) else (s, false)

/-- JS truthiness of the awaited `data` (`BatteryInsight | null`). -/
def dataTruthy : Option Json → Bool
  | none => false
  | some j => j.truthy

/-- Continuation of `fetchInsights` after the `await` (App.tsx lines
133-135): `if (data) setInsight(data); setLoadingInsight(false)`. -/
def fetchInsightsFinish (data : Option Json) (s : AppState) : AppState :=
  let s1 := if dataTruthy data then { s with insight := data } else s
  { s1 with loadingInsight := false }

/-- The threshold condition of the debounce `useEffect` (App.tsx line 139):
`lastFetchedLevel.current === null ||
 Math.abs(lastFetchedLevel.current - stats.level) >= 5`. -/
def shouldFetch (lastFetched : Option ℤ) (level : ℤ) : Bool :=
  match lastFetched with
  | none => true
  | some l0 => decide (5 ≤ (l0 - level).natAbs)

/-- The debounce `useEffect` body (App.tsx lines 138-144): when online and
the threshold condition holds, call `fetchInsights()` and then record the
current level in `lastFetchedLevel.current`.  The boolean reports whether a
fetch request was issued. -/
def levelEffect (s : AppState) : AppState × Bool :=
  if s.isOnline && shouldFetch s.lastFetchedLevel s.stats.level then
    let p := fetchInsightsStart s
    ({ p.fst with lastFetchedLevel := some s.stats.level }, p.snd)
  else (s, false)

/-- A user press of the Deep Analyze button (App.tsx lines 192-194): the
button is `disabled={loadingInsight || !isOnline}`, so a press in that state
fires no handler at all; otherwise `onClick={fetchInsights}` runs. -/
def deepAnalyzeClick (s : AppState) : AppState × Bool :=
  if s.loadingInsight || !s.isOnline then (s, false)
  else fetchInsightsStart s

/-- One tick of `historyInterval` (App.tsx lines 103-110): append a sample of
the current level under the formatted current time. -/
def historyTick (now : String) (s : AppState) : AppState :=
  { s with usageHistory := appendHistory s.usageHistory { time := now, level := s.stats.level } }

/-- True when the option holds a JSON string. -/
def isJsonString : Option Json → Bool
  | some (Json.str _) => true
  | _ => false

/-- Follows the spec's words (§6): a response conforms when it is a JSON
object with string fields `status`, `recommendation`,
`estimatedLifeRemaining` and an `optimizationTips` array of strings of
length 3.  Comparison definition for the schema-validation claim; the source
performs no such local check. -/
def conformsInsightSchemaSpec : Json → Bool
  | Json.obj fields =>
      isJsonString (fields.lookup "status") &&
      isJsonString (fields.lookup "recommendation") &&
      isJsonString (fields.lookup "estimatedLifeRemaining") &&
      (match fields.lookup "optimizationTips" with
       | some (Json.arr tips) =>
           (tips.length == 3) &&
             tips.all (fun t => match t with | Json.str _ => true | _ => false)
       | _ => false)
  | _ => false

/-- The failure cases of one insight fetch: the external call rejects
(network/service error), the response carries no text, the text is empty, or
the text is not parseable JSON. -/
def failingOutcome (parseJson : String → Option Json) (o : GenOutcome) : Prop :=
  o = GenOutcome.throws ∨ o = GenOutcome.returns none ∨
    o = GenOutcome.returns (some "") ∨
    ∃ t, o = GenOutcome.returns (some t) ∧ parseJson t = none

/-- A parse oracle that always fails, modelling `JSON.parse` on garbage. -/
def parseNone : String → Option Json := fun _ => none

/-- A parse oracle mapping the two-character text consisting of an opening
and a closing curly brace to the empty JSON object — exactly what
`JSON.parse` does on that text — and refusing everything else. -/
def parseEmptyObj : String → Option Json :=
  fun t => if t = "\x7b\x7d" then some (Json.obj []) else none

/-- A parse oracle mapping the quoted text `"hello"` to the JSON string
`hello`, as `JSON.parse` does. -/
def parseStrHello : String → Option Json :=
  fun t => if t = "\"hello\"" then some (Json.str "hello") else none

/-- A convenient fully-populated state: initial stats, no insight, not
loading, empty history, never fetched, online. -/
def baseState : AppState :=
  { stats := initialStats
    insight := none
    loadingInsight := false
    usageHistory := []
    lastFetchedLevel := some 100
    isOnline := true }

/-- C1: while online, a level update triggers an insight fetch iff no fetch
has ever occurred (`lastFetchedLevel` is still null) or the absolute
difference between the current level and the level recorded at the most
recent trigger is at least 5; a trigger records the current level as the new
last-requested level, and a non-trigger leaves the state unchanged.  Applied
at every state, this characterises every sequence of telemetry updates. -/
theorem debounce_trigger_iff (s : AppState) (hon : s.isOnline = true) :
    ((levelEffect s).snd = true ↔
      (s.lastFetchedLevel = none ∨
        ∃ l0, s.lastFetchedLevel = some l0 ∧ 5 ≤ (l0 - s.stats.level).natAbs)) ∧
    ((levelEffect s).snd = true →
      (levelEffect s).fst.lastFetchedLevel = some s.stats.level) ∧
    ((levelEffect s).snd = false → (levelEffect s).fst = s) := by
  cases hlf : s.lastFetchedLevel with
  | none => simp [levelEffect, shouldFetch, fetchInsightsStart, hon, hlf]
  | some l0 =>
    by_cases h5 : 5 ≤ (l0 - s.stats.level).natAbs
    · simp [levelEffect, shouldFetch, fetchInsightsStart, hon, hlf, h5]
    · simp [levelEffect, shouldFetch, fetchInsightsStart, hon, hlf, h5]

/-- The spec's worked example state: last-requested level 100, current level
94, online. -/
def s94 : AppState :=
  { baseState with
    stats := { initialStats with level := 94 }
    lastFetchedLevel := some 100 }

/-- Witness for C1: from last-requested 100, an update to 94 (delta 6 ≥ 5)
triggers a fetch and records 94 as the new last-requested level. -/
theorem debounce_trigger_iff_witness :
    (levelEffect s94).snd = true ∧
      (levelEffect s94).fst.lastFetchedLevel = some 94 := by
  have h := debounce_trigger_iff s94 rfl
  have htrig : (levelEffect s94).snd = true :=
    h.1.mpr (Or.inr ⟨100, rfl, by decide⟩)
  exact ⟨htrig, h.2.1 htrig⟩

/-- C3: when the connectivity flag is false, neither the automatic threshold
path, nor the manual Deep Analyze button, nor `fetchInsights` itself issues a
fetch, and the state is left unchanged. -/
theorem offline_no_fetch (s : AppState) (hoff : s.isOnline = false) :
    levelEffect s = (s, false) ∧ deepAnalyzeClick s = (s, false) ∧
      fetchInsightsStart s = (s, false) := by
  refine ⟨?_, ?_, ?_⟩ <;>
    simp [levelEffect, deepAnalyzeClick, fetchInsightsStart, hoff]

/-- An offline state in which the threshold condition itself holds (no fetch
has ever occurred). -/
def sOffline : AppState := { baseState with isOnline := false, lastFetchedLevel := none }

/-- Witness for C3: offline with the threshold condition satisfied, no fetch
is issued by either path. -/
theorem offline_no_fetch_witness :
    levelEffect sOffline = (sOffline, false) ∧
      deepAnalyzeClick sOffline = (sOffline, false) := by
  have h := offline_no_fetch sOffline rfl
  exact ⟨h.1, h.2.1⟩

/-- C7: pressing Deep Analyze while a fetch is in flight (loading flag true)
is a no-op: the button is disabled, so no handler runs, no second fetch
starts, and the state is unchanged. -/
theorem manual_trigger_loading_noop (s : AppState) (h : s.loadingInsight = true) :
    deepAnalyzeClick s = (s, false) := by
  simp [deepAnalyzeClick, h]

/-- An online state with a fetch in flight. -/
def sLoading : AppState := { baseState with loadingInsight := true }

/-- Witness for C7: with the loading flag set, a Deep Analyze press changes
nothing and issues no fetch. -/
theorem manual_trigger_loading_noop_witness :
    deepAnalyzeClick sLoading = (sLoading, false) :=
  manual_trigger_loading_noop sLoading rfl

/-- C8: the automatic threshold path never consults the loading flag: online
with a fetch already in flight, a level update whose delta meets the
threshold still issues a new fetch. -/
theorem auto_fetch_ignores_loading (s : AppState) (h1 : s.isOnline = true)
    (h2 : s.loadingInsight = true)
    (h3 : shouldFetch s.lastFetchedLevel s.stats.level = true) :
    (levelEffect s).snd = true ∧ (levelEffect s).fst.loadingInsight = true := by
  simp [levelEffect, fetchInsightsStart, h1, h2, h3]

/-- An online state with a fetch in flight and a 10-point level delta. -/
def sLoadingDelta : AppState :=
  { baseState with
    loadingInsight := true
    stats := { initialStats with level := 90 }
    lastFetchedLevel := some 100 }

/-- Witness for C8: loading, online, delta 10 ≥ 5 — a second automatic fetch
is issued anyway. -/
theorem auto_fetch_ignores_loading_witness :
    (levelEffect sLoadingDelta).snd = true :=
  (auto_fetch_ignores_loading sLoadingDelta rfl rfl (by decide)).1

/-- Every failing outcome makes `getBatteryInsights` return null. -/
theorem getBatteryInsights_failure {parseJson : String → Option Json}
    {o : GenOutcome} (h : failingOutcome parseJson o) :
    getBatteryInsights parseJson o = none := by
  rcases h with h | h | h | ⟨t, ht, hp⟩
  · subst h; rfl
  · subst h; rfl
  · subst h; simp [getBatteryInsights]
  · subst ht
    by_cases he : t = ""
    · simp [getBatteryInsights, he]
    · simp [getBatteryInsights, he, hp]

/-- A completed fetch whose data resolved to null clears only the loading
flag and leaves the rest of the state — the insight included — unchanged. -/
theorem finish_none_preserves (s : AppState) :
    fetchInsightsFinish none s = { s with loadingInsight := false } := by
  simp [fetchInsightsFinish, dataTruthy]

/-- C4: a fetch that fails (network error, absent/empty response text, or
parse error) leaves the previously displayed insight exactly unchanged, and
clears the loading flag. -/
theorem failed_fetch_preserves_insight (parseJson : String → Option Json)
    (o : GenOutcome) (s : AppState) (h : failingOutcome parseJson o) :
    (fetchInsightsFinish (getBatteryInsights parseJson o) s).insight = s.insight ∧
    (fetchInsightsFinish (getBatteryInsights parseJson o) s).loadingInsight = false := by
  rw [getBatteryInsights_failure h, finish_none_preserves]
  exact ⟨rfl, rfl⟩

/-- A state currently displaying an insight. -/
def sInsight : AppState := { baseState with insight := some (Json.str "ok") }

/-- Witness for C4: a network error (the external call rejects) leaves the
displayed insight exactly as it was. -/
theorem failed_fetch_preserves_insight_witness :
    (fetchInsightsFinish (getBatteryInsights parseNone GenOutcome.throws)
        sInsight).insight = some (Json.str "ok") := by
  have h := failed_fetch_preserves_insight parseNone GenOutcome.throws sInsight
    (Or.inl rfl)
  exact h.1

/-- C5 counterexample: after a failing fetch (network error) against a state
that displays an insight, the insight snapshot is NOT cleared to absent — it
still holds the previous value. -/
theorem failure_clears_insight_counterexample :
    (fetchInsightsFinish (getBatteryInsights parseNone GenOutcome.throws)
        sInsight).insight ≠ none := by
  simp [fetchInsightsFinish, getBatteryInsights, dataTruthy, sInsight, baseState]

/-- C5 amended: on a failed insight fetch (null data) the whole state change
is exactly the clearing of the loading flag: the insight snapshot is left
unchanged, not cleared to absent. -/
theorem failure_leaves_insight (data : Option Json) (s : AppState)
    (h : data = none) :
    fetchInsightsFinish data s = { s with loadingInsight := false } := by
  subst h
  exact finish_none_preserves s

/-- Witness for the amended C5: a failed fetch against a state displaying an
insight only clears the loading flag. -/
theorem failure_leaves_insight_witness :
    fetchInsightsFinish none sInsight = { sInsight with loadingInsight := false } :=
  failure_leaves_insight none sInsight rfl

/-- C6 counterexample: the service responds with the two-character text of an
empty JSON object; `getBatteryInsights` returns it non-null even though it
does not conform to the fixed schema (no string fields, no 3-tip array). -/
theorem schema_validation_counterexample :
    getBatteryInsights parseEmptyObj (GenOutcome.returns (some "\x7b\x7d"))
        = some (Json.obj []) ∧
      conformsInsightSchemaSpec (Json.obj []) = false := by
  constructor
  · simp [getBatteryInsights, parseEmptyObj, Json.isNull]
  · rfl

/-- C6 amended: `getBatteryInsights` returns null exactly when the external
call throws, the response text is absent or empty, or the text fails JSON
parsing or parses to the JSON `null` literal; any other parsed value is
returned as-is, with no local schema validation (field types and the
3-element tips array are not checked). -/
theorem getBatteryInsights_spec (parseJson : String → Option Json)
    (o : GenOutcome) :
    (getBatteryInsights parseJson o = none ↔
      (o = GenOutcome.throws ∨ o = GenOutcome.returns none ∨
        ∃ t, o = GenOutcome.returns (some t) ∧
          (t = "" ∨ parseJson t = none ∨
            ∃ j, parseJson t = some j ∧ j.isNull = true))) ∧
    (∀ t j, o = GenOutcome.returns (some t) → t ≠ "" → parseJson t = some j →
      j.isNull = false → getBatteryInsights parseJson o = some j) := by
  constructor
  · cases o with
    | throws => simp [getBatteryInsights]
    | returns text =>
      cases text with
      | none => simp [getBatteryInsights]
      | some t =>
        by_cases he : t = ""
        · subst he; simp [getBatteryInsights]
        · cases hp : parseJson t with
          | none => simp [getBatteryInsights, he, hp]
          | some j =>
            by_cases hn : j.isNull = true
            · simp [getBatteryInsights, he, hp, hn]
            · simp [getBatteryInsights, he, hp, hn]
  · intro t j hto hte hp hn
    subst hto
    simp [getBatteryInsights, hte, hp, hn]

/-- Witness for the amended C6: the service responds with the quoted text
`"hello"`, which parses to a bare JSON string — not an object at all — and
`getBatteryInsights` returns it unvalidated. -/
theorem getBatteryInsights_spec_witness :
    getBatteryInsights parseStrHello (GenOutcome.returns (some "\"hello\""))
      = some (Json.str "hello") := by
  have h := getBatteryInsights_spec parseStrHello
    (GenOutcome.returns (some "\"hello\""))
  exact h.2 "\"hello\"" (Json.str "hello") rfl (by decide) rfl rfl

/-- Unfolding of one history append: the appended list is truncated from the
front exactly when it would exceed 20 entries. -/
theorem appendHistory_eq (prev : List UsageData) (sample : UsageData) :
    appendHistory prev sample =
      if 20 < prev.length + 1 then (prev ++ [sample]).drop 1
      else prev ++ [sample] := by
  simp [appendHistory]

/-- Running any tick sequence from a buffer of at most 20 entries keeps
exactly the newest 20 of the combined sequence, in order. -/
theorem foldl_appendHistory_eq (samples : List UsageData) :
    ∀ acc : List UsageData, acc.length ≤ 20 →
      List.foldl appendHistory acc samples =
        (acc ++ samples).drop (acc.length + samples.length - 20) := by
  induction samples with
  | nil =>
    intro acc hacc
    simp [Nat.sub_eq_zero_of_le hacc]
  | cons x xs ih =>
    intro acc hacc
    rw [List.foldl_cons, appendHistory_eq]
    by_cases h20 : 20 < acc.length + 1
    · rw [if_pos h20]
      have hlen : ((acc ++ [x]).drop 1).length ≤ 20 := by
        simp
        omega
      rw [ih _ hlen]
      have h1 : (1 : ℕ) ≤ (acc ++ [x]).length := by simp
      rw [← List.drop_append_of_le_length h1, List.drop_drop]
      have hl : acc ++ [x] ++ xs = acc ++ x :: xs := by simp
      rw [hl]
      congr 1
      simp only [List.length_drop, List.length_append, List.length_cons,
        List.length_nil]
      omega
    · rw [if_neg h20]
      have hlen : (acc ++ [x]).length ≤ 20 := by
        simp
        omega
      rw [ih _ hlen]
      have hl : acc ++ [x] ++ xs = acc ++ x :: xs := by simp
      rw [hl]
      congr 1
      simp only [List.length_append, List.length_cons, List.length_nil]
      omega

/-- The buffer after a whole session of ticks holds exactly the newest
`min n 20` samples. -/
theorem historyRun_eq (samples : List UsageData) :
    historyRun samples = samples.drop (samples.length - 20) := by
  have h := foldl_appendHistory_eq samples [] (by simp)
  simpa [historyRun] using h

/-- C2: for every tick sequence, the history buffer never exceeds 20
entries, holds exactly the most recent `min n 20` samples, and equals the
tick sequence with precisely its oldest overflow dropped from the front —
strict FIFO in original relative order (so after 25 ticks, ticks 1-5 are
absent and ticks 6-25 are present in order). -/
theorem history_capacity_fifo (samples : List UsageData) :
    (historyRun samples).length ≤ 20 ∧
    (historyRun samples).length = min samples.length 20 ∧
    historyRun samples = samples.drop (samples.length - 20) := by
  have h := historyRun_eq samples
  refine ⟨?_, ?_, h⟩ <;> rw [h, List.length_drop] <;> omega

/-- `round` on `ℚ` is monotone. -/
theorem round_le_round {x y : ℚ} (h : x ≤ y) : round x ≤ round y := by
  rw [round_eq, round_eq]
  exact Int.floor_le_floor (by linarith)

/-- `round` maps a value between two integers to an integer between them. -/
theorem round_bounded {q : ℚ} {a b : ℤ} (h1 : (a : ℚ) ≤ q) (h2 : q ≤ (b : ℚ)) :
    a ≤ round q ∧ round q ≤ b := by
  constructor
  · have h := round_le_round h1
    rwa [round_intCast] at h
  · have h := round_le_round h2
    rwa [round_intCast] at h

/-- A single telemetry merge with a capability level in [0.0, 1.0] yields an
integer percent in [0, 100]. -/
theorem updateBatteryInfo_level_bounds (b : BatteryRaw) (prev : BatteryStats)
    (h0 : 0 ≤ b.level) (h1 : b.level ≤ 1) :
    0 ≤ (updateBatteryInfo b prev).level ∧
      (updateBatteryInfo b prev).level ≤ 100 := by
  have hlo : ((0 : ℤ) : ℚ) ≤ b.level * 100 := by
    push_cast
    nlinarith
  have hhi : b.level * 100 ≤ ((100 : ℤ) : ℚ) := by
    push_cast
    nlinarith
  simpa [updateBatteryInfo] using round_bounded hlo hhi

/-- C9: the initial default level is 100, and for every sequence of
telemetry updates whose raw capability levels lie in [0.0, 1.0], the
displayed level (each update sets it to `round(raw * 100)`) stays in
[0, 100]. -/
theorem level_always_in_range (updates : List BatteryRaw)
    (h : ∀ b ∈ updates, 0 ≤ b.level ∧ b.level ≤ 1) :
    initialStats.level = 100 ∧
    0 ≤ (updates.foldl (fun st b => updateBatteryInfo b st) initialStats).level ∧
    (updates.foldl (fun st b => updateBatteryInfo b st) initialStats).level ≤ 100 := by
  refine ⟨rfl, ?_⟩
  have key : ∀ (l : List BatteryRaw) (st : BatteryStats),
      (∀ b ∈ l, 0 ≤ b.level ∧ b.level ≤ 1) → 0 ≤ st.level → st.level ≤ 100 →
      0 ≤ (l.foldl (fun st b => updateBatteryInfo b st) st).level ∧
        (l.foldl (fun st b => updateBatteryInfo b st) st).level ≤ 100 := by
    intro l
    induction l with
    | nil =>
      intro st _ hl hu
      exact ⟨hl, hu⟩
    | cons b bs ih =>
      intro st hmem hl hu
      have hb := hmem b (by simp)
      have hub := updateBatteryInfo_level_bounds b st hb.1 hb.2
      exact ih (updateBatteryInfo b st) (fun x hx => hmem x (by simp [hx]))
        hub.1 hub.2
  exact key updates initialStats h (by decide) (by decide)

/-- A telemetry event at raw level one half with deterministic random
draws. -/
def rawHalf : BatteryRaw :=
  { level := 1/2
    charging := false
    chargingTime := 0
    dischargingTime := 0
    rand1 := 0
    rand2 := 0 }

/-- Witness for C9: one update at raw level 0.5 lands on level 50, inside
[0, 100]. -/
theorem level_always_in_range_witness :
    0 ≤ ([rawHalf].foldl (fun st b => updateBatteryInfo b st) initialStats).level ∧
    ([rawHalf].foldl (fun st b => updateBatteryInfo b st) initialStats).level ≤ 100 ∧
    ([rawHalf].foldl (fun st b => updateBatteryInfo b st) initialStats).level = 50 := by
  have h := level_always_in_range [rawHalf] (by
    intro b hb
    simp at hb
    subst hb
    constructor <;> norm_num [rawHalf])
  refine ⟨h.2.1, h.2.2, ?_⟩
  simp only [List.foldl, updateBatteryInfo]
  rw [show (rawHalf.level * 100 : ℚ) = 50 by norm_num [rawHalf]]
  simp

/-- The rounded temperature sample lies in the closed interval [30, 38]: the
raw draw lies in [30, 38), but rounding to one decimal can land exactly on
38. -/
theorem tempSample_bounds {r : ℚ} (h0 : 0 ≤ r) (h1 : r < 1) :
    30 ≤ tempSample r ∧ tempSample r ≤ 38 := by
  have hlo : ((300 : ℤ) : ℚ) ≤ (30 + r * 8) * 10 := by
    push_cast
    nlinarith
  have hhi : (30 + r * 8) * 10 ≤ ((380 : ℤ) : ℚ) := by
    push_cast
    nlinarith
  obtain ⟨l1, l2⟩ := round_bounded hlo hhi
  have c1 : (300 : ℚ) ≤ ((round ((30 + r * 8) * 10) : ℤ) : ℚ) := by
    exact_mod_cast l1
  have c2 : ((round ((30 + r * 8) * 10) : ℤ) : ℚ) ≤ 380 := by
    exact_mod_cast l2
  unfold tempSample toFixed1
  constructor <;> linarith

/-- The rounded voltage sample lies in the closed interval [3.6, 4.2]: the
raw draw lies in [3.6, 4.2), but rounding to two decimals can land exactly
on 4.2. -/
theorem voltSample_bounds {r : ℚ} (h0 : 0 ≤ r) (h1 : r < 1) :
    3.6 ≤ voltSample r ∧ voltSample r ≤ 4.2 := by
  have hlo : ((360 : ℤ) : ℚ) ≤ (3.6 + r * 0.6) * 100 := by
    push_cast
    nlinarith
  have hhi : (3.6 + r * 0.6) * 100 ≤ ((420 : ℤ) : ℚ) := by
    push_cast
    nlinarith
  obtain ⟨l1, l2⟩ := round_bounded hlo hhi
  have c1 : (360 : ℚ) ≤ ((round ((3.6 + r * 0.6) * 100) : ℤ) : ℚ) := by
    exact_mod_cast l1
  have c2 : ((round ((3.6 + r * 0.6) * 100) : ℤ) : ℚ) ≤ 420 := by
    exact_mod_cast l2
  unfold voltSample toFixed2
  constructor <;> linarith

/-- A telemetry event whose temperature draw is 0.9999, which rounds up to
exactly 38.0 °C. -/
def rawHot : BatteryRaw :=
  { level := 1
    charging := false
    chargingTime := 0
    dischargingTime := 0
    rand1 := 9999/10000
    rand2 := 0 }

/-- C10 counterexample: the random draw 0.9999 is in [0, 1), the raw
temperature 30 + 0.9999·8 = 37.9992 is below 38, but `toFixed(1)` rounds it
to exactly 38.0, which is outside the claimed half-open range [30, 38). -/
theorem temp_range_counterexample :
    0 ≤ rawHot.rand1 ∧ rawHot.rand1 < 1 ∧
    (updateBatteryInfo rawHot initialStats).temperature = 38 ∧
    ¬ (updateBatteryInfo rawHot initialStats).temperature < 38 := by
  have hround : round ((47499 : ℚ)/125) = 380 := by
    rw [round_eq, Int.floor_eq_iff]
    norm_num
  have heq : (updateBatteryInfo rawHot initialStats).temperature = 38 := by
    simp only [updateBatteryInfo, tempSample, toFixed1]
    rw [show ((30 : ℚ) + rawHot.rand1 * 8) * 10 = 47499/125 by norm_num [rawHot]]
    rw [hround]
    norm_num
  refine ⟨by norm_num [rawHot], by norm_num [rawHot], heq, ?_⟩
  rw [heq]
  exact lt_irrefl 38

/-- C10 amended: on every telemetry update with random draws in [0, 1), the
resampled temperature lies in the closed range [30, 38] °C and the resampled
voltage lies in the closed range [3.6, 4.2] V (the upper endpoints are
attainable through the one- and two-decimal rounding). -/
theorem resample_bounds (b : BatteryRaw) (prev : BatteryStats)
    (h1 : 0 ≤ b.rand1) (h2 : b.rand1 < 1) (h3 : 0 ≤ b.rand2) (h4 : b.rand2 < 1) :
    (30 ≤ (updateBatteryInfo b prev).temperature ∧
      (updateBatteryInfo b prev).temperature ≤ 38) ∧
    (3.6 ≤ (updateBatteryInfo b prev).voltage ∧
      (updateBatteryInfo b prev).voltage ≤ 4.2) := by
  have ht := tempSample_bounds h1 h2
  have hv := voltSample_bounds h3 h4
  exact ⟨by simpa [updateBatteryInfo] using ht,
    by simpa [updateBatteryInfo] using hv⟩

/-- Witness for the amended C10: the update at draws (0.9999, 0) keeps both
resampled fields inside the closed ranges. -/
theorem resample_bounds_witness :
    (30 ≤ (updateBatteryInfo rawHot initialStats).temperature ∧
      (updateBatteryInfo rawHot initialStats).temperature ≤ 38) ∧
    (3.6 ≤ (updateBatteryInfo rawHot initialStats).voltage ∧
      (updateBatteryInfo rawHot initialStats).voltage ≤ 4.2) :=
  resample_bounds rawHot initialStats (by norm_num [rawHot])
    (by norm_num [rawHot]) (by norm_num [rawHot]) (by norm_num [rawHot])

end BatteryCore
